import Mathlib

/-!
Verification of the game top-up marketplace core.

The data model is embedded from src/app/models.py.  Monetary values
(Python decimal.Decimal columns with 2 decimal places) are embedded as
exact rationals; the 2-decimal-place representability constraint is the
predicate twoDp.  The core operations (pricing engine, transaction
orchestrator state machine, fulfillment gateway adapter, customer
registry) are declared by the specification but their implementation is
not part of src/app; those operations are modelled from the spec and
are marked as such in their doc comments.
-/

deriving instance DecidableEq for Except

namespace TopUp

/-- A rational is representable in fixed-point decimal with 2 decimal
places: it is an integer multiple of 1/100. -/
def twoDp (q : ℚ) : Prop := ∃ n : ℤ, q = (n : ℚ) / 100

/-- Transaction status enumeration (src/app/models.py, TransactionStatus). -/
inductive TransactionStatus where
  | pending
  | processing
  | success
  | failed
  | cancelled
deriving DecidableEq

/-- Top-up product (src/app/models.py, Product).  Display-only fields
(name, description, denomination, timestamps, sort order) are omitted;
all fields consulted by the claims are kept. -/
structure Product where
  id : Nat
  game_id : Nat
  digiflazz_sku : String
  price : ℚ
  original_price : Option ℚ
  discount_percentage : Option ℤ
  is_active : Bool
  stock_status : String
  minimum_purchase : ℤ
  maximum_purchase : ℤ
deriving DecidableEq

/-- One element of a pricing selection: a product id together with a
requested quantity (spec section 4.1, computeTotals input). -/
structure Selection where
  productId : Nat
  quantity : ℤ
deriving DecidableEq

/-- Transaction line item (src/app/models.py, TransactionItem): the
price snapshot captured at transaction-creation time. -/
structure TransactionItem where
  product_id : Nat
  quantity : ℤ
  unit_price : ℚ
  total_price : ℚ
  digiflazz_sku : String
deriving DecidableEq

/-- Error taxonomy of the pricing engine (spec sections 4.1 and 7). -/
inductive PricingError where
  | validationError
  | paymentMethodRangeError
deriving DecidableEq

/-- Resolve a product id against a catalog snapshot. -/
def lookupProduct (catalog : List Product) (pid : Nat) : Option Product :=
  catalog.find? (fun p => p.id == pid)

/-- A selection is valid when its product id resolves to an active
product whose stock status is available and whose purchase bounds admit
the requested quantity (spec section 4.1). -/
def validSelection (catalog : List Product) (s : Selection) : Prop :=
  ∃ p, lookupProduct catalog s.productId = some p ∧
    p.is_active = true ∧ p.stock_status = "available" ∧
    p.minimum_purchase ≤ s.quantity ∧ s.quantity ≤ p.maximum_purchase

/-- Modelled from the spec: the pricing engine (section 4.1) is not in
src/app.  Prices one selection: the unit price is the product's current
price (already discount-applied), the line total is unit price times
quantity, exact in fixed-point decimal. -/
def computeLine (catalog : List Product) (s : Selection) :
    Except PricingError TransactionItem :=
  match lookupProduct catalog s.productId with
  | none => .error .validationError
  | some p =>
    if p.is_active = true ∧ p.stock_status = "available" ∧
        p.minimum_purchase ≤ s.quantity ∧ s.quantity ≤ p.maximum_purchase then
      .ok { product_id := s.productId, quantity := s.quantity,
            unit_price := p.price, total_price := p.price * (s.quantity : ℚ),
            digiflazz_sku := p.digiflazz_sku }
    else .error .validationError

/-- Modelled from the spec: prices every selection of a list in order,
propagating the first validation failure (spec section 4.1). -/
def computeLines (catalog : List Product) :
    List Selection → Except PricingError (List TransactionItem)
  | [] => .ok []
  | s :: rest =>
    match computeLine catalog s with
    | .error e => .error e
    | .ok li =>
      match computeLines catalog rest with
      | .error e => .error e
      | .ok others => .ok (li :: others)

/-- Sum of the line totals of a list of transaction items. -/
def itemsSum (items : List TransactionItem) : ℚ :=
  (items.map TransactionItem.total_price).sum

/-- Modelled from the spec: computeTotals (section 4.1) is not in
src/app.  Fails on an empty selection set or on any invalid selection;
otherwise returns the line items and the total amount, the exact sum of
the line totals. -/
def computeTotals (catalog : List Product) (sels : List Selection) :
    Except PricingError (List TransactionItem × ℚ) :=
  match sels with
  | [] => .error .validationError
  | _ :: _ =>
    match computeLines catalog sels with
    | .error e => .error e
    | .ok items => .ok (items, itemsSum items)

/-- Payment method (src/app/models.py, PaymentMethod), restricted to
the fee and range fields the pricing engine consults. -/
structure PaymentMethod where
  slug : String
  min_amount : ℚ
  max_amount : ℚ
  fee_percentage : ℚ
  fee_fixed : ℚ
  is_active : Bool
deriving DecidableEq

/-- Modelled from the spec: payment-method fee layering (section 4.1)
is not in src/app.  The fee is fee_percentage times the total plus
fee_fixed; the resulting amount must lie within the payment method's
min/max range, otherwise the computation fails with
paymentMethodRangeError. -/
def applyPaymentFee (pm : PaymentMethod) (total : ℚ) : Except PricingError ℚ :=
  if pm.min_amount ≤ total + (pm.fee_percentage * total + pm.fee_fixed) ∧
      total + (pm.fee_percentage * total + pm.fee_fixed) ≤ pm.max_amount then
    .ok (total + (pm.fee_percentage * total + pm.fee_fixed))
  else .error .paymentMethodRangeError

/-- Transaction aggregate (src/app/models.py, Transaction), owning its
line items (spec section 3).  Fields not consulted by any claim
(payment fields, notes, provider response blob, created/updated
timestamps) are omitted; the event timestamps are modelled as ticks of
the world clock. -/
structure Transaction where
  transaction_id : String
  digiflazz_ref_id : Option String
  customer_id : Option Nat
  game_id : Nat
  status : TransactionStatus
  total_amount : ℚ
  items : List TransactionItem
  error_message : Option String
  processed_at : Option Nat
  completed_at : Option Nat
deriving DecidableEq

/-- Customer (src/app/models.py, Customer), restricted to identity and
the accumulated statistics the claims consult. -/
structure Customer where
  id : Nat
  total_spent : ℚ
  total_transactions : ℤ
  last_transaction_at : Option Nat
deriving DecidableEq

/-- Normalized fulfillment provider response (spec sections 4.3 and 6). -/
inductive ProviderResponse where
  | success (refId : String)
  | transientError
  | permanentError (msg : String)
deriving DecidableEq

/-- Whether a recorded response is a definitive success. -/
def ProviderResponse.isSuccess : ProviderResponse → Bool
  | .success _ => true
  | _ => false

/-- External API call record (src/app/models.py, ApiLog): one immutable
entry per provider call attempt, keyed by transaction id; request and
timing metadata not consulted by the claims are omitted. -/
structure ApiLog where
  transaction_id : Option String
  response : ProviderResponse
  created_at : Nat
deriving DecidableEq

/-- The whole persistent state the orchestrator acts on. -/
structure World where
  catalog : List Product
  transactions : List Transaction
  customers : List Customer
  api_logs : List ApiLog
  providerOrders : List String
  nextId : Nat
  clock : Nat
deriving DecidableEq

/-- The transaction with the given internal id, if present. -/
def findTxn (ts : List Transaction) (tid : String) : Option Transaction :=
  ts.find? (fun t => t.transaction_id == tid)

/-- Rewrite in place the transaction with the given id. -/
def updateTxn (ts : List Transaction) (tid : String)
    (g : Transaction → Transaction) : List Transaction :=
  ts.map (fun t => if t.transaction_id == tid then g t else t)

/-- The operations of the transaction orchestrator, fulfillment gateway
adapter and customer registry (spec sections 4.2 to 4.4), together with
the catalog price update the frame claims quantify over.  Provider
responses appear as operation arguments: they are the environment's
input. -/
inductive Op where
  | createTransaction (gameId : Nat) (sels : List Selection)
      (customerId : Option Nat) (pm : Option PaymentMethod)
  | dispatchToGateway (tid : String) (resp : ProviderResponse)
  | notifySuccess (tid : String) (refId : String)
  | notifyFailure (tid : String) (msg : String)
  | cancelTransaction (tid : String)
  | updateProductPrice (pid : Nat) (newPrice : ℚ)

/-- Outcome reported to the caller of an operation. -/
inductive OpResult where
  | created (tid : String) (total : ℚ)
  | dispatched (resp : ProviderResponse)
  | cachedOutcome (resp : ProviderResponse)
  | statsApplied
  | markedFailed
  | txnCancelled
  | noop
  | rejected (e : PricingError)
  | stateConflict
  | notFound
deriving DecidableEq

/-- Transaction rewrite applied by dispatch: move to PROCESSING,
stamping processed_at on the PENDING→PROCESSING transition only. -/
def dispatchUpdater (clock : Nat) (u : Transaction) : Transaction :=
  { u with
    status := .processing,
    processed_at := if u.status = .pending then some clock else u.processed_at }

/-- Transaction rewrite applied by the provider success callback. -/
def successUpdater (clock : Nat) (refId : String) (u : Transaction) :
    Transaction :=
  { u with
    status := .success, digiflazz_ref_id := some refId,
    completed_at := some clock }

/-- Transaction rewrite applied by the provider failure callback. -/
def failureUpdater (msg : String) (u : Transaction) : Transaction :=
  { u with status := .failed, error_message := some msg }

/-- Transaction rewrite applied by cancellation. -/
def cancelUpdater (u : Transaction) : Transaction :=
  { u with status := .cancelled }

/-- Customer statistics rewrite applied when transaction t succeeds. -/
def statsUpdater (clock : Nat) (t : Transaction) (c : Customer) : Customer :=
  if t.customer_id = some c.id then
    { c with
      total_spent := c.total_spent + t.total_amount,
      total_transactions := c.total_transactions + 1,
      last_transaction_at := some clock }
  else c

/-- The ledger entry appended by one dispatch attempt. -/
def dispatchLog (clock : Nat) (tid : String) (resp : ProviderResponse) :
    ApiLog :=
  { transaction_id := some tid, response := resp, created_at := clock }

/-- Modelled from the spec: the optional payment-method fee gate at
transaction creation (section 4.1): no payment method means no fee and
no range check. -/
def feeGate (pm : Option PaymentMethod) (total : ℚ) : Except PricingError ℚ :=
  match pm with
  | none => Except.ok total
  | some m => applyPaymentFee m total

/-- Modelled from the spec: the transaction orchestrator, gateway
adapter and customer registry (sections 4.2 to 4.5) are not in
src/app.  One atomic operation on the world state:

* createTransaction prices the selections (section 4.1), applies the
  optional payment-method fee gate, and persists a new PENDING
  transaction whose total_amount and item price snapshots are fixed at
  creation; the internally generated id must be fresh (the
  transaction_id column is unique in src/app/models.py).
* dispatchToGateway first consults the API call ledger: a recorded
  definitive success short-circuits to the cached outcome with no new
  provider order and no new ledger entry (section 4.3); otherwise, for
  a PENDING or PROCESSING transaction, it issues the provider order,
  appends the attempt to the ledger unconditionally, and moves a
  PENDING transaction to PROCESSING, stamping processed_at.
* notifySuccess applies the provider success callback: only a
  PROCESSING transaction moves to SUCCESS, stamping completed_at,
  recording the provider reference and incrementing the customer
  statistics; any other status is a no-op (section 4.4).
* notifyFailure moves a PROCESSING transaction to FAILED and records
  the error message.
* cancelTransaction cancels a PENDING transaction; any other status is
  a state conflict and changes nothing.
* updateProductPrice is the catalog write the frame claims range over. -/
def step (w : World) (op : Op) : World × OpResult :=
  match op with
  | .createTransaction gameId sels cid pm =>
    match computeTotals w.catalog sels with
    | .error e => (w, .rejected e)
    | .ok (items, total) =>
      match feeGate pm total with
      | .error e => (w, .rejected e)
      | .ok _ =>
        if (findTxn w.transactions (toString w.nextId)).isSome then
          (w, .stateConflict)
        else
          ({ w with
             transactions :=
               { transaction_id := toString w.nextId,
                 digiflazz_ref_id := none, customer_id := cid,
                 game_id := gameId, status := .pending,
                 total_amount := total, items := items,
                 error_message := none, processed_at := none,
                 completed_at := none } :: w.transactions,
             nextId := w.nextId + 1, clock := w.clock + 1 },
           .created (toString w.nextId) total)
  | .dispatchToGateway tid resp =>
    match findTxn w.transactions tid with
    | none => (w, .notFound)
    | some t =>
      match w.api_logs.find?
          (fun e => e.transaction_id == some tid && e.response.isSuccess) with
      | some prior => (w, .cachedOutcome prior.response)
      | none =>
        if t.status = .pending ∨ t.status = .processing then
          ({ w with
             transactions :=
               updateTxn w.transactions tid (dispatchUpdater w.clock),
             api_logs := dispatchLog w.clock tid resp :: w.api_logs,
             providerOrders := tid :: w.providerOrders,
             clock := w.clock + 1 },
           .dispatched resp)
        else (w, .stateConflict)
  | .notifySuccess tid refId =>
    match findTxn w.transactions tid with
    | none => (w, .notFound)
    | some t =>
      if t.status = .processing then
        ({ w with
           transactions :=
             updateTxn w.transactions tid (successUpdater w.clock refId),
           customers := w.customers.map (statsUpdater w.clock t),
           clock := w.clock + 1 },
         .statsApplied)
      else (w, .noop)
  | .notifyFailure tid msg =>
    match findTxn w.transactions tid with
    | none => (w, .notFound)
    | some t =>
      if t.status = .processing then
        ({ w with
           transactions :=
             updateTxn w.transactions tid (failureUpdater msg),
           clock := w.clock + 1 },
         .markedFailed)
      else (w, .noop)
  | .cancelTransaction tid =>
    match findTxn w.transactions tid with
    | none => (w, .notFound)
    | some t =>
      if t.status = .pending then
        ({ w with
           transactions := updateTxn w.transactions tid cancelUpdater,
           clock := w.clock + 1 },
         .txnCancelled)
      else (w, .stateConflict)
  | .updateProductPrice pid newPrice =>
    ({ w with
       catalog := w.catalog.map (fun p =>
         if p.id == pid then { p with price := newPrice } else p),
       clock := w.clock + 1 },
     .noop)

/-- Initial world: a catalog and a customer base, no transactions, no
ledger entries, no provider orders. -/
def World.init (catalog : List Product) (customers : List Customer) : World :=
  { catalog := catalog, transactions := [], customers := customers,
    api_logs := [], providerOrders := [], nextId := 0, clock := 0 }

/-- Worlds reachable from an initial world by orchestrator operations. -/
inductive Reachable : World → Prop where
  | base (catalog : List Product) (customers : List Customer) :
      Reachable (World.init catalog customers)
  | next (w : World) (op : Op) : Reachable w → Reachable (step w op).1

/-- The status transitions the spec state machine admits
(spec section 4.2). -/
def allowedTransition (a b : TransactionStatus) : Prop :=
  (a = .pending ∧ b = .processing) ∨ (a = .processing ∧ b = .success) ∨
  (a = .processing ∧ b = .failed) ∨ (a = .pending ∧ b = .cancelled)

/-- Terminal statuses (spec section 4.2). -/
def terminalStatus (s : TransactionStatus) : Prop :=
  s = .success ∨ s = .failed ∨ s = .cancelled

/-- total_amount equals the sum of the items' total_price for every
transaction of the world. -/
def financiallyConsistent (w : World) : Prop :=
  ∀ t ∈ w.transactions, t.total_amount = itemsSum t.items

/-- Product creation payload (src/app/models.py, ProductCreate).  The
purchase bounds are not part of the payload; a created product takes
the model defaults of src/app/models.py for them. -/
structure ProductCreate where
  game_id : Nat
  digiflazz_sku : String
  price : ℚ
  original_price : Option ℚ
  discount_percentage : Option ℤ
deriving DecidableEq

/-- Product update payload (src/app/models.py, ProductUpdate): none
means the field is left unchanged. -/
structure ProductUpdate where
  price : Option ℚ
  original_price : Option ℚ
  discount_percentage : Option ℤ
  is_active : Option Bool
  stock_status : Option String
deriving DecidableEq

/-- The section-3 catalog invariants: a set discount implies the price
is at most the original price, and the purchase bounds are ordered. -/
def productInvariant (p : Product) : Prop :=
  (∀ d, p.discount_percentage = some d →
    ∃ o, p.original_price = some o ∧ p.price ≤ o) ∧
  p.minimum_purchase ≤ p.maximum_purchase

/-- Decidable check of productInvariant together with the schema bounds
of src/app/models.py (discount within [0, 100], purchase bounds ≥ 1). -/
def productOk (p : Product) : Bool :=
  (match p.discount_percentage, p.original_price with
   | none, _ => true
   | some d, some o => decide (0 ≤ d ∧ d ≤ 100 ∧ p.price ≤ o)
   | some _, none => false) &&
  decide (1 ≤ p.minimum_purchase ∧ p.minimum_purchase ≤ p.maximum_purchase)

/-- Modelled from the spec: catalog management (product creation) is an
external collaborator outside src/app.  Creation applies the model
defaults of src/app/models.py (active, available, bounds [1, 10]) and
enforces the section-3 invariants. -/
def createProduct (pc : ProductCreate) (newId : Nat) :
    Except PricingError Product :=
  let p : Product :=
    { id := newId, game_id := pc.game_id, digiflazz_sku := pc.digiflazz_sku,
      price := pc.price, original_price := pc.original_price,
      discount_percentage := pc.discount_percentage, is_active := true,
      stock_status := "available", minimum_purchase := 1,
      maximum_purchase := 10 }
  if productOk p then .ok p else .error .validationError

/-- Field-wise application of a ProductUpdate (none leaves the field). -/
def applyProductUpdate (p : Product) (u : ProductUpdate) : Product :=
  { p with
    price := u.price.getD p.price,
    original_price :=
      match u.original_price with
      | none => p.original_price
      | some o => some o,
    discount_percentage :=
      match u.discount_percentage with
      | none => p.discount_percentage
      | some d => some d,
    is_active := u.is_active.getD p.is_active,
    stock_status := u.stock_status.getD p.stock_status }

/-- Modelled from the spec: catalog management (product update) is
outside src/app; an update whose result would violate the section-3
invariants is rejected. -/
def updateProduct (p : Product) (u : ProductUpdate) :
    Except PricingError Product :=
  let q := applyProductUpdate p u
  if productOk q then .ok q else .error .validationError

/-- Validated top-up request schema (src/app/models.py, TopUpRequest). -/
structure TopUpRequest where
  game_id : Nat
  product_id : Nat
  game_user_id : String
  game_user_server : Option String
  quantity : ℤ
  customer_email : Option String
  customer_phone : Option String
  customer_name : Option String
  payment_method : Option String
deriving DecidableEq

/-- Raw payload submitted by the UI before schema validation; an absent
quantity is none (the schema declares default=1 for it). -/
structure TopUpRequestInput where
  game_id : Nat
  product_id : Nat
  game_user_id : String
  game_user_server : Option String
  quantity : Option ℤ
  customer_email : Option String
  customer_phone : Option String
  customer_name : Option String
  payment_method : Option String
deriving DecidableEq

/-- Length bound for an optional string field. -/
def optMaxLen (s : Option String) (n : Nat) : Prop :=
  match s with
  | none => True
  | some x => x.length ≤ n

instance (s : Option String) (n : Nat) : Decidable (optMaxLen s n) := by
  unfold optMaxLen
  cases s <;> infer_instance

/-- Schema validation of a TopUpRequest (src/app/models.py,
TopUpRequest): quantity defaults to 1 and must satisfy ge=1, and
every string field must satisfy its max_length bound. -/
def validateTopUpRequest (r : TopUpRequestInput) :
    Except PricingError TopUpRequest :=
  let q := r.quantity.getD 1
  if 1 ≤ q ∧ r.game_user_id.length ≤ 100 ∧ optMaxLen r.game_user_server 50 ∧
      optMaxLen r.customer_email 255 ∧ optMaxLen r.customer_phone 20 ∧
      optMaxLen r.customer_name 100 ∧ optMaxLen r.payment_method 50 then
    .ok { game_id := r.game_id, product_id := r.product_id,
          game_user_id := r.game_user_id,
          game_user_server := r.game_user_server, quantity := q,
          customer_email := r.customer_email,
          customer_phone := r.customer_phone,
          customer_name := r.customer_name,
          payment_method := r.payment_method }
  else .error .validationError

-- ### Concrete fixtures used by the witnesses

/-- A sample in-stock product: id 1, price 150.00, bounds [1, 5]. -/
def productEx : Product where
  id := 1
  game_id := 1
  digiflazz_sku := "SKU1"
  price := 150
  original_price := none
  discount_percentage := none
  is_active := true
  stock_status := "available"
  minimum_purchase := 1
  maximum_purchase := 5

/-- The line item produced by pricing productEx at quantity 3. -/
def itemEx : TransactionItem where
  product_id := 1
  quantity := 3
  unit_price := 150
  total_price := 450
  digiflazz_sku := "SKU1"

/-- A sample selection: product 1, quantity 3. -/
def selEx : Selection where
  productId := 1
  quantity := 3

/-- A sample customer with no accumulated statistics. -/
def custEx : Customer where
  id := 7
  total_spent := 0
  total_transactions := 0
  last_transaction_at := none

/-- The transaction created from selEx for custEx, as persisted in
PENDING state. -/
def txnPendingEx : Transaction where
  transaction_id := "0"
  digiflazz_ref_id := none
  customer_id := some 7
  game_id := 1
  status := .pending
  total_amount := 450
  items := [itemEx]
  error_message := none
  processed_at := none
  completed_at := none

/-- txnPendingEx after dispatch: PROCESSING, processed_at stamped. -/
def txnProcessingEx : Transaction :=
  { txnPendingEx with status := .processing, processed_at := some 1 }

/-- txnProcessingEx after the success callback: SUCCESS, completed_at
stamped, provider reference recorded. -/
def txnSuccessEx : Transaction :=
  { txnProcessingEx with
    status := .success, digiflazz_ref_id := some "REF",
    completed_at := some 2 }

/-- The ledger entry recorded by the dispatch of txnPendingEx. -/
def logEx : ApiLog where
  transaction_id := some "0"
  response := .success "REF"
  created_at := 1

/-- custEx after the statistics update for txnSuccessEx. -/
def custEx2 : Customer :=
  { custEx with
    total_spent := 450, total_transactions := 1,
    last_transaction_at := some 2 }

/-- A payment method whose range admits the fixture total plus fee. -/
def pmEx : PaymentMethod where
  slug := "bank"
  min_amount := 100
  max_amount := 1000
  fee_percentage := 0
  fee_fixed := 50
  is_active := true

/-- A payment method whose minimum exceeds the fixture total. -/
def pmTight : PaymentMethod where
  slug := "tight"
  min_amount := 1000
  max_amount := 2000
  fee_percentage := 0
  fee_fixed := 0
  is_active := true

/-- A discounted product creation payload. -/
def pcEx : ProductCreate where
  game_id := 1
  digiflazz_sku := "SKU2"
  price := 100
  original_price := some 150
  discount_percentage := some 10

/-- The product created from pcEx with the model defaults. -/
def pEx2 : Product where
  id := 5
  game_id := 1
  digiflazz_sku := "SKU2"
  price := 100
  original_price := some 150
  discount_percentage := some 10
  is_active := true
  stock_status := "available"
  minimum_purchase := 1
  maximum_purchase := 10

/-- A raw top-up request with the quantity field omitted. -/
def topUpGood : TopUpRequestInput where
  game_id := 1
  product_id := 1
  game_user_id := "player1"
  game_user_server := none
  quantity := none
  customer_email := none
  customer_phone := none
  customer_name := none
  payment_method := none

/-- topUpGood with an explicit quantity of 0. -/
def topUpBad : TopUpRequestInput :=
  { topUpGood with quantity := some 0 }

/-- A product with a negative price: neither the schema of
src/app/models.py (price has no lower bound) nor the section-4.1
validations exclude it. -/
def prodNeg : Product :=
  { productEx with id := 2, digiflazz_sku := "SKUN", price := -50 }

/-- The line item produced by pricing prodNeg at quantity 3. -/
def itemNeg : TransactionItem where
  product_id := 2
  quantity := 3
  unit_price := -50
  total_price := -150
  digiflazz_sku := "SKUN"

/-- A selection of the negative-price product. -/
def selNeg : Selection where
  productId := 2
  quantity := 3

/-- The transaction created from selNeg, in PENDING state. -/
def txnNegPending : Transaction :=
  { txnPendingEx with total_amount := -150, items := [itemNeg] }

/-- txnNegPending after dispatch. -/
def txnNegProcessing : Transaction :=
  { txnNegPending with status := .processing, processed_at := some 1 }

/-- The ledger entry recorded by the dispatch of txnNegPending. -/
def logNeg : ApiLog where
  transaction_id := some "0"
  response := .success "RN"
  created_at := 1

/-- custEx after the statistics update for the negative transaction. -/
def custNegEx : Customer :=
  { custEx with
    total_spent := -150, total_transactions := 1,
    last_transaction_at := some 2 }

/-- Initial world holding the negative-price product. -/
def wn0ex : World := World.init [prodNeg] [custEx]

/-- wn0ex after createTransaction. -/
def wn1ex : World where
  catalog := [prodNeg]
  transactions := [txnNegPending]
  customers := [custEx]
  api_logs := []
  providerOrders := []
  nextId := 1
  clock := 1

/-- wn1ex after dispatchToGateway. -/
def wn2ex : World where
  catalog := [prodNeg]
  transactions := [txnNegProcessing]
  customers := [custEx]
  api_logs := [logNeg]
  providerOrders := ["0"]
  nextId := 1
  clock := 2

/-- The initial fixture world: one product, one customer. -/
def w0ex : World := World.init [productEx] [custEx]

/-- w0ex after createTransaction. -/
def w1ex : World where
  catalog := [productEx]
  transactions := [txnPendingEx]
  customers := [custEx]
  api_logs := []
  providerOrders := []
  nextId := 1
  clock := 1

/-- w1ex after dispatchToGateway. -/
def w2ex : World where
  catalog := [productEx]
  transactions := [txnProcessingEx]
  customers := [custEx]
  api_logs := [logEx]
  providerOrders := ["0"]
  nextId := 1
  clock := 2

/-- w2ex after the success notification. -/
def w3ex : World where
  catalog := [productEx]
  transactions := [txnSuccessEx]
  customers := [custEx2]
  api_logs := [logEx]
  providerOrders := ["0"]
  nextId := 1
  clock := 3

-- ### Pricing engine helper lemmas

theorem computeLine_ok (catalog : List Product) (s : Selection)
    (li : TransactionItem) (h : computeLine catalog s = .ok li) :
    ∃ p, lookupProduct catalog s.productId = some p ∧
      li.unit_price = p.price ∧ li.quantity = s.quantity ∧
      li.total_price = li.unit_price * (li.quantity : ℚ) := by
  unfold computeLine at h
  split at h
  · exact absurd h (by simp)
  · next p hl =>
    split at h
    · cases h
      exact ⟨p, hl, rfl, rfl, rfl⟩
    · exact absurd h (by simp)

theorem computeLine_error (catalog : List Product) (s : Selection)
    (e : PricingError) (h : computeLine catalog s = .error e) :
    e = .validationError := by
  unfold computeLine at h
  split at h
  · cases h; rfl
  · split at h
    · exact absurd h (by simp)
    · cases h; rfl

theorem computeLine_not_valid (catalog : List Product) (s : Selection)
    (h : ¬ validSelection catalog s) :
    computeLine catalog s = .error .validationError := by
  unfold computeLine
  split
  · rfl
  · next p hl =>
    rw [if_neg]
    intro hc
    exact h ⟨p, hl, hc.1, hc.2.1, hc.2.2.1, hc.2.2.2⟩

theorem computeLines_mem (catalog : List Product) (sels : List Selection)
    (items : List TransactionItem) (h : computeLines catalog sels = .ok items) :
    ∀ li ∈ items, ∃ s ∈ sels, computeLine catalog s = .ok li := by
  induction sels generalizing items with
  | nil =>
    unfold computeLines at h
    cases h
    intro li hli
    exact absurd hli (by simp)
  | cons s rest ih =>
    unfold computeLines at h
    split at h
    · exact absurd h (by simp)
    · next li0 h1 =>
      split at h
      · exact absurd h (by simp)
      · next others h2 =>
        cases h
        intro li hli
        rcases List.mem_cons.mp hli with hhd | htl
        · exact ⟨s, List.mem_cons_self s rest, hhd ▸ h1⟩
        · rcases ih others h2 li htl with ⟨s2, hs2, hok⟩
          exact ⟨s2, List.mem_cons_of_mem s hs2, hok⟩

theorem computeLines_length (catalog : List Product) (sels : List Selection)
    (items : List TransactionItem) (h : computeLines catalog sels = .ok items) :
    items.length = sels.length := by
  induction sels generalizing items with
  | nil => unfold computeLines at h; cases h; rfl
  | cons s rest ih =>
    unfold computeLines at h
    split at h
    · exact absurd h (by simp)
    · next li0 h1 =>
      split at h
      · exact absurd h (by simp)
      · next others h2 =>
        cases h
        simp [ih others h2]

theorem computeLines_error (catalog : List Product) (sels : List Selection)
    (e : PricingError) (h : computeLines catalog sels = .error e) :
    e = .validationError := by
  induction sels with
  | nil => unfold computeLines at h; exact absurd h (by simp)
  | cons s rest ih =>
    unfold computeLines at h
    split at h
    · next e1 h1 =>
      cases h
      exact computeLine_error catalog s _ h1
    · split at h
      · next e2 h2 =>
        cases h
        exact ih h2
      · exact absurd h (by simp)

theorem computeLines_invalid (catalog : List Product) (sels : List Selection)
    (s : Selection) (hs : s ∈ sels) (hbad : ¬ validSelection catalog s) :
    ∃ e, computeLines catalog sels = .error e := by
  induction sels with
  | nil => exact absurd hs (by simp)
  | cons s0 rest ih =>
    rcases List.mem_cons.mp hs with hhd | htl
    · refine ⟨.validationError, ?_⟩
      unfold computeLines
      rw [← hhd, computeLine_not_valid catalog s hbad]
    · rcases h1 : computeLine catalog s0 with e1 | li0
      · refine ⟨e1, ?_⟩
        unfold computeLines
        rw [h1]
      · rcases ih htl with ⟨e2, h2⟩
        refine ⟨e2, ?_⟩
        unfold computeLines
        rw [h1, h2]

theorem computeTotals_ok (catalog : List Product) (sels : List Selection)
    (items : List TransactionItem) (total : ℚ)
    (h : computeTotals catalog sels = .ok (items, total)) :
    total = itemsSum items ∧ computeLines catalog sels = .ok items ∧
      sels ≠ [] := by
  unfold computeTotals at h
  split at h
  · exact absurd h (by simp)
  · next s rest =>
    split at h
    · exact absurd h (by simp)
    · next items0 h2 =>
      cases h
      exact ⟨rfl, h2, by simp⟩

theorem twoDp_add (a b : ℚ) (ha : twoDp a) (hb : twoDp b) : twoDp (a + b) := by
  rcases ha with ⟨m, hm⟩
  rcases hb with ⟨n, hn⟩
  exact ⟨m + n, by rw [hm, hn]; push_cast; ring⟩

theorem twoDp_zero : twoDp 0 := ⟨0, by norm_num⟩

theorem twoDp_intMul (a : ℚ) (n : ℤ) (ha : twoDp a) : twoDp (a * (n : ℚ)) := by
  rcases ha with ⟨m, hm⟩
  exact ⟨m * n, by rw [hm]; push_cast; ring⟩

theorem twoDp_sum (items : List TransactionItem)
    (h : ∀ li ∈ items, twoDp li.total_price) : twoDp (itemsSum items) := by
  induction items with
  | nil => exact twoDp_zero
  | cons li rest ih =>
    unfold itemsSum
    simp only [List.map_cons, List.sum_cons]
    exact twoDp_add _ _ (h li (List.mem_cons_self li rest))
      (ih (fun x hx => h x (List.mem_cons_of_mem li hx)))

theorem lookupProduct_mem (catalog : List Product) (pid : Nat) (p : Product)
    (h : lookupProduct catalog pid = some p) : p ∈ catalog :=
  List.mem_of_find?_eq_some h

-- ### World helper lemmas

theorem findTxn_eq_id (ts : List Transaction) (tid : String) (t : Transaction)
    (h : findTxn ts tid = some t) : t.transaction_id = tid := by
  have hp := List.find?_some h
  simpa using hp

theorem findTxn_mem (ts : List Transaction) (tid : String) (t : Transaction)
    (h : findTxn ts tid = some t) : t ∈ ts :=
  List.mem_of_find?_eq_some h

theorem findTxn_updateTxn (ts : List Transaction) (tid0 : String)
    (g : Transaction → Transaction)
    (hg : ∀ u, (g u).transaction_id = u.transaction_id) (tid : String) :
    findTxn (updateTxn ts tid0 g) tid =
      (findTxn ts tid).map
        (fun t => if t.transaction_id == tid0 then g t else t) := by
  unfold findTxn updateTxn
  have hfg : ((fun t : Transaction => t.transaction_id == tid) ∘
      (fun t => if t.transaction_id == tid0 then g t else t)) =
      (fun t : Transaction => t.transaction_id == tid) := by
    funext u
    by_cases h0 : u.transaction_id == tid0
    · simp [Function.comp, h0, hg u]
    · simp [Function.comp, h0]
  rw [List.find?_map, hfg]

theorem findTxn_cons_of_fresh (ts : List Transaction) (t0 : Transaction)
    (tid : String) (t : Transaction)
    (hfresh : findTxn ts t0.transaction_id = none)
    (h : findTxn ts tid = some t) : findTxn (t0 :: ts) tid = some t := by
  unfold findTxn at *
  have hne : ¬ (t0.transaction_id == tid) = true := by
    intro hb
    rw [beq_iff_eq] at hb
    rw [hb] at hfresh
    rw [hfresh] at h
    exact absurd h (by simp)
  rw [@List.find?_cons_of_neg _ (fun u : Transaction => u.transaction_id == tid)
    t0 ts hne]
  exact h

/-- How one operation rewrites the transaction table: unchanged; one
fresh PENDING financially consistent row prepended; or an in-place
per-id rewrite that preserves identity, total_amount and items, and
whose status change on the addressed transaction is either none or an
allowed transition of the spec state machine. -/
theorem step_transactions_shape (w : World) (op : Op) :
    (step w op).1.transactions = w.transactions ∨
    (∃ t0, (step w op).1.transactions = t0 :: w.transactions ∧
      findTxn w.transactions t0.transaction_id = none ∧
      t0.status = .pending ∧ t0.total_amount = itemsSum t0.items) ∨
    (∃ tid0 g t0,
      (step w op).1.transactions = updateTxn w.transactions tid0 g ∧
      findTxn w.transactions tid0 = some t0 ∧
      (∀ u, (g u).transaction_id = u.transaction_id ∧
        (g u).total_amount = u.total_amount ∧ (g u).items = u.items) ∧
      ((g t0).status = t0.status ∨ allowedTransition t0.status (g t0).status)) := by
  cases op with
  | createTransaction gameId sels cid pm =>
    rcases h : computeTotals w.catalog sels with e | ⟨items, total⟩
    · left; simp [step, h]
    · rcases hg : feeGate pm total with e | amt
      · left; simp [step, h, hg]
      · by_cases hid : (findTxn w.transactions (toString w.nextId)).isSome
        · left; simp [step, h, hg, hid]
        · right; left
          have hrw : (step w (.createTransaction gameId sels cid pm)).1.transactions =
              ({ transaction_id := toString w.nextId, digiflazz_ref_id := none,
                 customer_id := cid, game_id := gameId, status := .pending,
                 total_amount := total, items := items, error_message := none,
                 processed_at := none, completed_at := none } : Transaction)
                :: w.transactions := by
            simp [step, h, hg, hid]
          exact ⟨_, hrw, Option.not_isSome_iff_eq_none.mp hid, rfl,
            (computeTotals_ok _ _ _ _ h).1⟩
  | dispatchToGateway tid resp =>
    rcases hf : findTxn w.transactions tid with _ | t
    · left; simp [step, hf]
    · rcases hl : w.api_logs.find?
          (fun e => e.transaction_id == some tid && e.response.isSuccess)
          with _ | prior
      · by_cases hst : t.status = .pending ∨ t.status = .processing
        · right; right
          refine ⟨tid, dispatchUpdater w.clock, t, ?_, hf,
            fun u => ⟨rfl, rfl, rfl⟩, ?_⟩
          · simp [step, hf, hl, hst]
          · rcases hst with hp | hp
            · exact Or.inr (Or.inl ⟨hp, rfl⟩)
            · exact Or.inl hp.symm
        · left; simp [step, hf, hl, hst]
      · left; simp [step, hf, hl]
  | notifySuccess tid refId =>
    rcases hf : findTxn w.transactions tid with _ | t
    · left; simp [step, hf]
    · by_cases hst : t.status = .processing
      · right; right
        refine ⟨tid, successUpdater w.clock refId, t, ?_, hf,
          fun u => ⟨rfl, rfl, rfl⟩, Or.inr (Or.inr (Or.inl ⟨hst, rfl⟩))⟩
        simp [step, hf, hst]
      · left; simp [step, hf, hst]
  | notifyFailure tid msg =>
    rcases hf : findTxn w.transactions tid with _ | t
    · left; simp [step, hf]
    · by_cases hst : t.status = .processing
      · right; right
        refine ⟨tid, failureUpdater msg, t, ?_, hf,
          fun u => ⟨rfl, rfl, rfl⟩, Or.inr (Or.inr (Or.inr (Or.inl ⟨hst, rfl⟩)))⟩
        simp [step, hf, hst]
      · left; simp [step, hf, hst]
  | cancelTransaction tid =>
    rcases hf : findTxn w.transactions tid with _ | t
    · left; simp [step, hf]
    · by_cases hst : t.status = .pending
      · right; right
        refine ⟨tid, cancelUpdater, t, ?_, hf,
          fun u => ⟨rfl, rfl, rfl⟩, Or.inr (Or.inr (Or.inr (Or.inr ⟨hst, rfl⟩)))⟩
        simp [step, hf, hst]
      · left; simp [step, hf, hst]
  | updateProductPrice pid newPrice =>
    left; simp [step]

/-- No operation rewrites the identity, total_amount or items of an
existing transaction. -/
theorem step_frame (w : World) (op : Op) (tid : String) (t : Transaction)
    (h : findTxn w.transactions tid = some t) :
    ∃ u, findTxn (step w op).1.transactions tid = some u ∧
      u.transaction_id = t.transaction_id ∧
      u.total_amount = t.total_amount ∧ u.items = t.items := by
  rcases step_transactions_shape w op with hs | ⟨t0, hs, hfresh, _, _⟩ |
    ⟨tid0, g, t0, hs, _, hg, _⟩
  · exact ⟨t, by rw [hs]; exact h, rfl, rfl, rfl⟩
  · exact ⟨t, by rw [hs]; exact findTxn_cons_of_fresh _ _ _ _ hfresh h,
      rfl, rfl, rfl⟩
  · rw [hs, findTxn_updateTxn _ _ _ (fun u => (hg u).1) tid, h]
    by_cases h0 : t.transaction_id == tid0
    · refine ⟨g t, ?_, (hg t).1, (hg t).2.1, (hg t).2.2⟩
      simp only [Option.map_some', if_pos h0]
    · refine ⟨t, ?_, rfl, rfl, rfl⟩
      simp only [Option.map_some', if_neg h0]

/-- How one operation rewrites the customer table: unchanged, or the
statistics increment for one transaction of the world. -/
theorem step_customers_shape (w : World) (op : Op) :
    (step w op).1.customers = w.customers ∨
    (∃ t, t ∈ w.transactions ∧
      (step w op).1.customers =
        w.customers.map (statsUpdater w.clock t)) := by
  cases op with
  | createTransaction gameId sels cid pm =>
    rcases h : computeTotals w.catalog sels with e | ⟨items, total⟩
    · left; simp [step, h]
    · rcases hg : feeGate pm total with e | amt
      · left; simp [step, h, hg]
      · by_cases hid : (findTxn w.transactions (toString w.nextId)).isSome
        · left; simp [step, h, hg, hid]
        · left; simp [step, h, hg, hid]
  | dispatchToGateway tid resp =>
    rcases hf : findTxn w.transactions tid with _ | t
    · left; simp [step, hf]
    · rcases hl : w.api_logs.find?
          (fun e => e.transaction_id == some tid && e.response.isSuccess)
          with _ | prior
      · by_cases hst : t.status = .pending ∨ t.status = .processing
        · left; simp [step, hf, hl, hst]
        · left; simp [step, hf, hl, hst]
      · left; simp [step, hf, hl]
  | notifySuccess tid refId =>
    rcases hf : findTxn w.transactions tid with _ | t
    · left; simp [step, hf]
    · by_cases hst : t.status = .processing
      · right
        exact ⟨t, findTxn_mem _ _ _ hf, by simp [step, hf, hst]⟩
      · left; simp [step, hf, hst]
  | notifyFailure tid msg =>
    rcases hf : findTxn w.transactions tid with _ | t
    · left; simp [step, hf]
    · by_cases hst : t.status = .processing
      · left; simp [step, hf, hst]
      · left; simp [step, hf, hst]
  | cancelTransaction tid =>
    rcases hf : findTxn w.transactions tid with _ | t
    · left; simp [step, hf]
    · by_cases hst : t.status = .pending
      · left; simp [step, hf, hst]
      · left; simp [step, hf, hst]
  | updateProductPrice pid newPrice =>
    left; simp [step]

theorem reachable_financiallyConsistent (w : World) (hr : Reachable w) :
    financiallyConsistent w := by
  induction hr with
  | base catalog customers =>
    intro t ht
    exact absurd ht (by simp [World.init])
  | next w0 op hr0 ih =>
    rcases step_transactions_shape w0 op with hs | ⟨t0, hs, _, _, ht0⟩ |
      ⟨tid0, g, t0, hs, _, hg, _⟩
    · intro t ht; rw [hs] at ht; exact ih t ht
    · intro t ht
      rw [hs] at ht
      rcases List.mem_cons.mp ht with rfl | htl
      · exact ht0
      · exact ih t htl
    · intro t ht
      rw [hs] at ht
      unfold updateTxn at ht
      rcases List.mem_map.mp ht with ⟨u, hu, hfu⟩
      rw [← hfu]
      by_cases h0 : u.transaction_id == tid0
      · rw [if_pos h0, (hg u).2.1, (hg u).2.2]
        exact ih u hu
      · rw [if_neg h0]
        exact ih u hu

-- ### Fixture evaluation lemmas

theorem computeTotalsEx : computeTotals [productEx] [selEx] = .ok ([itemEx], 450) := by
  simp only [computeTotals, computeLines, computeLine, lookupProduct,
    productEx, selEx, itemEx, itemsSum, List.find?, List.map]
  norm_num

theorem create_ex : step w0ex (.createTransaction 1 [selEx] (some 7) none) =
    (w1ex, .created "0" 450) := by
  have hcat : w0ex.catalog = [productEx] := rfl
  simp only [step, hcat, computeTotalsEx, feeGate]
  have hfind : (findTxn w0ex.transactions (toString w0ex.nextId)).isSome = false := rfl
  simp only [hfind, Bool.false_eq_true, if_false]
  have h0 : toString w0ex.nextId = "0" := by decide
  simp only [w0ex, World.init, w1ex, txnPendingEx, h0]
  constructor

theorem dispatch_ex : step w1ex (.dispatchToGateway "0" (.success "REF")) =
    (w2ex, .dispatched (.success "REF")) := by
  have hfind : findTxn w1ex.transactions "0" = some txnPendingEx := by decide
  have hlog : w1ex.api_logs.find?
      (fun e => e.transaction_id == some "0" && e.response.isSuccess) = none := rfl
  have hst : txnPendingEx.status = .pending ∨ txnPendingEx.status = .processing :=
    Or.inl rfl
  simp only [step, hfind, hlog, if_pos hst]
  have hupd : updateTxn w1ex.transactions "0" (dispatchUpdater w1ex.clock) =
      [txnProcessingEx] := by decide
  have hlogeq : dispatchLog w1ex.clock "0" (.success "REF") = logEx := by decide
  simp only [hupd, hlogeq, w1ex, w2ex]
  constructor

theorem notify_ex : step w2ex (.notifySuccess "0" "REF") =
    (w3ex, .statsApplied) := by
  have hfind : findTxn w2ex.transactions "0" = some txnProcessingEx := by decide
  have hst : txnProcessingEx.status = .processing := rfl
  simp only [step, hfind, if_pos hst]
  have hupd : updateTxn w2ex.transactions "0" (successUpdater w2ex.clock "REF") =
      [txnSuccessEx] := by decide
  rw [hupd]
  have hcust : w2ex.customers.map (statsUpdater w2ex.clock txnProcessingEx) =
      [custEx2] := by
    simp only [w2ex, List.map, statsUpdater, custEx, custEx2, txnProcessingEx,
      txnPendingEx]
    norm_num
  rw [hcust]
  simp only [w2ex, w3ex]

theorem computeTotalsNeg : computeTotals [prodNeg] [selNeg] =
    .ok ([itemNeg], -150) := by
  simp only [computeTotals, computeLines, computeLine, lookupProduct,
    prodNeg, productEx, selNeg, itemNeg, itemsSum, List.find?, List.map]
  norm_num

theorem createNeg_ex : step wn0ex (.createTransaction 1 [selNeg] (some 7) none) =
    (wn1ex, .created "0" (-150)) := by
  have hcat : wn0ex.catalog = [prodNeg] := rfl
  simp only [step, hcat, computeTotalsNeg, feeGate]
  have hfind : (findTxn wn0ex.transactions (toString wn0ex.nextId)).isSome =
      false := rfl
  simp only [hfind, Bool.false_eq_true, if_false]
  have h0 : toString wn0ex.nextId = "0" := by decide
  simp only [wn0ex, World.init, wn1ex, txnNegPending, txnPendingEx, h0]
  constructor

theorem dispatchNeg_ex : step wn1ex (.dispatchToGateway "0" (.success "RN")) =
    (wn2ex, .dispatched (.success "RN")) := by
  have hfind : findTxn wn1ex.transactions "0" = some txnNegPending := by decide
  have hlog : wn1ex.api_logs.find?
      (fun e => e.transaction_id == some "0" && e.response.isSuccess) = none :=
    rfl
  have hst : txnNegPending.status = .pending ∨
      txnNegPending.status = .processing := Or.inl rfl
  simp only [step, hfind, hlog, if_pos hst]
  have hupd : updateTxn wn1ex.transactions "0" (dispatchUpdater wn1ex.clock) =
      [txnNegProcessing] := by decide
  have hlogeq : dispatchLog wn1ex.clock "0" (.success "RN") = logNeg := by decide
  simp only [hupd, hlogeq, wn1ex, wn2ex]
  constructor

theorem reachable_wn2ex : Reachable wn2ex := by
  have h0 : Reachable wn0ex := .base _ _
  have h1 : Reachable wn1ex := by
    have hn := Reachable.next wn0ex (.createTransaction 1 [selNeg] (some 7) none) h0
    rwa [createNeg_ex] at hn
  have hn := Reachable.next wn1ex (.dispatchToGateway "0" (.success "RN")) h1
  rwa [dispatchNeg_ex] at hn

theorem reachable_w3ex : Reachable w3ex := by
  have h0 : Reachable w0ex := .base _ _
  have h1 : Reachable w1ex := by
    have hn := Reachable.next w0ex (.createTransaction 1 [selEx] (some 7) none) h0
    rwa [create_ex] at hn
  have h2 : Reachable w2ex := by
    have hn := Reachable.next w1ex (.dispatchToGateway "0" (.success "REF")) h1
    rwa [dispatch_ex] at hn
  have hn := Reachable.next w2ex (.notifySuccess "0" "REF") h2
  rwa [notify_ex] at hn

-- ### Claim theorems on the pricing engine

/-- C1: for every valid selection list, the computed totalAmount equals
the exact sum of the line totals, every line total equals unit price
times quantity, there is one line item per selection (at least one),
and fixed-point 2-decimal-place representability is preserved from the
catalog prices to every line total and to the total amount (no rounding
drift). -/
theorem pricing_totals_exact (catalog : List Product) (sels : List Selection)
    (items : List TransactionItem) (total : ℚ)
    (h : computeTotals catalog sels = .ok (items, total)) :
    total = itemsSum items ∧
    (∀ li ∈ items, li.total_price = li.unit_price * (li.quantity : ℚ)) ∧
    items.length = sels.length ∧ 1 ≤ items.length ∧
    ((∀ p ∈ catalog, twoDp p.price) →
      (∀ li ∈ items, twoDp li.total_price) ∧ twoDp total) := by
  rcases computeTotals_ok catalog sels items total h with ⟨htot, hlines, hne⟩
  have hmem := computeLines_mem catalog sels items hlines
  have hlen := computeLines_length catalog sels items hlines
  have hprod : ∀ li ∈ items, li.total_price = li.unit_price * (li.quantity : ℚ) := by
    intro li hli
    rcases hmem li hli with ⟨s, _, hok⟩
    rcases computeLine_ok catalog s li hok with ⟨p, _, _, _, hp⟩
    exact hp
  refine ⟨htot, hprod, hlen, ?_, ?_⟩
  · rw [hlen]
    match sels, hne with
    | s :: rest, _ => simp
  · intro hcat
    have hdp : ∀ li ∈ items, twoDp li.total_price := by
      intro li hli
      rcases hmem li hli with ⟨s, _, hok⟩
      rcases computeLine_ok catalog s li hok with ⟨p, hlook, hup, _, hp⟩
      rw [hp, hup]
      exact twoDp_intMul p.price li.quantity
        (hcat p (lookupProduct_mem catalog s.productId p hlook))
    exact ⟨hdp, htot ▸ twoDp_sum items hdp⟩

/-- Witness for C1 at a concrete catalog and selection: one product
priced 150.00, quantity 3, total 450.00. -/
theorem pricing_totals_exact_witness :
    computeTotals [productEx] [selEx] = .ok ([itemEx], 450) ∧
    (450 : ℚ) = itemsSum [itemEx] ∧ twoDp (450 : ℚ) := by
  have hc := computeTotalsEx
  have hmain := pricing_totals_exact [productEx] [selEx] [itemEx] 450 hc
  refine ⟨hc, hmain.1, ?_⟩
  have hcat : ∀ p ∈ [productEx], twoDp p.price := by
    intro p hp
    rcases List.mem_singleton.mp hp with rfl
    exact ⟨15000, by norm_num [productEx]⟩
  exact (hmain.2.2.2.2 hcat).2

-- ### Claim theorems on the orchestrator

/-- C2: total_amount and the item price snapshots are computed once at
creation and never rewritten by any later operation; consequently a
reachable transaction in SUCCESS state has its total_amount equal to
the sum of its items' total_price captured at creation, even though
updateProductPrice may change catalog prices afterwards. -/
theorem total_amount_frozen :
    (∀ w op tid t, findTxn w.transactions tid = some t →
      ∃ u, findTxn (step w op).1.transactions tid = some u ∧
        u.transaction_id = t.transaction_id ∧
        u.total_amount = t.total_amount ∧ u.items = t.items) ∧
    (∀ w, Reachable w → ∀ t ∈ w.transactions, t.status = .success →
      t.total_amount = itemsSum t.items) :=
  ⟨fun w op tid t h => step_frame w op tid t h,
   fun w hr t ht _ => reachable_financiallyConsistent w hr t ht⟩

/-- Witness for C2: in the reachable fixture world w3ex the transaction
reached SUCCESS with total 450 = sum of its one 450 line, and a catalog
price update leaves its total and items untouched. -/
theorem total_amount_frozen_witness :
    txnSuccessEx.total_amount = itemsSum txnSuccessEx.items ∧
    (∃ u, findTxn (step w3ex (.updateProductPrice 1 999)).1.transactions "0"
        = some u ∧ u.transaction_id = txnSuccessEx.transaction_id ∧
      u.total_amount = txnSuccessEx.total_amount ∧
      u.items = txnSuccessEx.items) := by
  have hmem : txnSuccessEx ∈ w3ex.transactions :=
    List.mem_singleton.mpr rfl
  have hfind : findTxn w3ex.transactions "0" = some txnSuccessEx := by decide
  exact ⟨total_amount_frozen.2 w3ex reachable_w3ex txnSuccessEx hmem rfl,
    total_amount_frozen.1 w3ex (.updateProductPrice 1 999) "0" txnSuccessEx
      hfind⟩

/-- C4: the state machine admits exactly PENDING→PROCESSING,
PROCESSING→SUCCESS, PROCESSING→FAILED and PENDING→CANCELLED: any
observable status change of any operation on any world is one of
these, no operation moves a transaction out of a terminal status, and
PROCESSING→CANCELLED never occurs. -/
theorem status_state_machine (w : World) (op : Op) (tid : String)
    (t u : Transaction) (ht : findTxn w.transactions tid = some t)
    (hu : findTxn (step w op).1.transactions tid = some u) :
    (t.status ≠ u.status → allowedTransition t.status u.status) ∧
    (terminalStatus t.status → u.status = t.status) ∧
    ¬ (t.status = .processing ∧ u.status = .cancelled) := by
  have key : u.status = t.status ∨ allowedTransition t.status u.status := by
    rcases step_transactions_shape w op with hs | ⟨t0, hs, hfresh, _, _⟩ |
      ⟨tid0, g, t0, hs, hf0, hg, hstat⟩
    · rw [hs, ht] at hu
      cases hu
      exact Or.inl rfl
    · rw [hs, findTxn_cons_of_fresh _ _ _ _ hfresh ht] at hu
      cases hu
      exact Or.inl rfl
    · rw [hs, findTxn_updateTxn _ _ _ (fun x => (hg x).1) tid, ht] at hu
      simp only [Option.map_some'] at hu
      by_cases h0 : t.transaction_id == tid0
      · rw [if_pos h0] at hu
        cases hu
        have htid : tid = tid0 := by
          have := findTxn_eq_id _ _ _ ht
          rw [beq_iff_eq] at h0
          rw [← this, h0]
        rw [← htid] at hf0
        rw [ht] at hf0
        cases hf0
        rcases hstat with hsame | hall
        · exact Or.inl hsame
        · exact Or.inr hall
      · rw [if_neg h0] at hu
        cases hu
        exact Or.inl rfl
  refine ⟨?_, ?_, ?_⟩
  · intro hne
    rcases key with heq | hall
    · exact (hne heq.symm).elim
    · exact hall
  · intro hterm
    rcases key with heq | hall
    · exact heq
    · exfalso
      rcases hall with ⟨ha, _⟩ | ⟨ha, _⟩ | ⟨ha, _⟩ | ⟨ha, _⟩ <;>
        rw [ha] at hterm <;>
        rcases hterm with h | h | h <;> exact absurd h (by decide)
  · rintro ⟨hp, hc⟩
    rcases key with heq | hall
    · rw [hp, hc] at heq
      exact absurd heq (by decide)
    · rw [hp, hc] at hall
      rcases hall with ⟨ha, _⟩ | ⟨_, hb⟩ | ⟨_, hb⟩ | ⟨ha, _⟩
      · exact absurd ha (by decide)
      · exact absurd hb (by decide)
      · exact absurd hb (by decide)
      · exact absurd ha (by decide)

/-- Witness for C4: the success notification on the fixture world moves
the transaction PROCESSING→SUCCESS, an allowed transition, and it is
not a PROCESSING→CANCELLED step. -/
theorem status_state_machine_witness :
    allowedTransition txnProcessingEx.status txnSuccessEx.status ∧
    ¬ (txnProcessingEx.status = .processing ∧
       txnSuccessEx.status = .cancelled) := by
  have ht : findTxn w2ex.transactions "0" = some txnProcessingEx := by decide
  have hu : findTxn (step w2ex (.notifySuccess "0" "REF")).1.transactions "0" =
      some txnSuccessEx := by
    rw [notify_ex]
    decide
  have hmain := status_state_machine w2ex (.notifySuccess "0" "REF") "0"
    txnProcessingEx txnSuccessEx ht hu
  exact ⟨hmain.1 (by decide), hmain.2.2⟩

/-- C3: dispatchToGateway is idempotent: after a dispatch whose
provider response is a definitive success, a second dispatch for the
same transaction returns the cached outcome and changes nothing, so
the two calls together issue exactly one provider order and exactly
one ledger entry for the transaction, and that entry records the
definitive success. -/
theorem dispatch_idempotent (w : World) (tid : String) (t : Transaction)
    (refId : String) (r2 : ProviderResponse)
    (ht : findTxn w.transactions tid = some t) (hst : t.status = .pending)
    (hled : ∀ e ∈ w.api_logs, e.transaction_id ≠ some tid)
    (hord : tid ∉ w.providerOrders) :
    step (step w (.dispatchToGateway tid (.success refId))).1
        (.dispatchToGateway tid r2) =
      ((step w (.dispatchToGateway tid (.success refId))).1,
        .cachedOutcome (.success refId)) ∧
    (step w (.dispatchToGateway tid (.success refId))).1.providerOrders.count
        tid = 1 ∧
    ((step w (.dispatchToGateway tid (.success refId))).1.api_logs.filter
        (fun e => e.transaction_id == some tid)).length = 1 ∧
    (∀ e ∈ (step w (.dispatchToGateway tid (.success refId))).1.api_logs,
      e.transaction_id = some tid → e.response = .success refId) := by
  have hfnone : w.api_logs.find?
      (fun e => e.transaction_id == some tid && e.response.isSuccess) = none := by
    rw [List.find?_eq_none]
    intro e he
    simp only [Bool.and_eq_true, beq_iff_eq, not_and]
    intro hcon
    exact absurd hcon (hled e he)
  have hcond : t.status = .pending ∨ t.status = .processing := Or.inl hst
  have h1 : step w (.dispatchToGateway tid (.success refId)) =
      ({ w with
         transactions := updateTxn w.transactions tid (dispatchUpdater w.clock),
         api_logs := dispatchLog w.clock tid (.success refId) :: w.api_logs,
         providerOrders := tid :: w.providerOrders,
         clock := w.clock + 1 },
       .dispatched (.success refId)) := by
    simp [step, ht, hfnone, hcond]
  refine ⟨?_, ?_, ?_, ?_⟩
  · rw [h1]
    have hfind2 : findTxn
        (updateTxn w.transactions tid (dispatchUpdater w.clock)) tid =
        some (dispatchUpdater w.clock t) := by
      rw [findTxn_updateTxn w.transactions tid (dispatchUpdater w.clock)
        (fun u => rfl) tid, ht]
      have hb : (t.transaction_id == tid) = true :=
        beq_iff_eq.mpr (findTxn_eq_id _ _ _ ht)
      simp only [Option.map_some']
      rw [if_pos hb]
    have hcache : (dispatchLog w.clock tid (.success refId) :: w.api_logs).find?
        (fun e => e.transaction_id == some tid && e.response.isSuccess) =
        some (dispatchLog w.clock tid (.success refId)) :=
      List.find?_cons_of_pos _ (by simp [dispatchLog, ProviderResponse.isSuccess])
    simp only [step, hfind2, hcache]
    rfl
  · simp only [h1]
    have hzero : w.providerOrders.count tid = 0 := List.count_eq_zero.mpr hord
    simp [List.count_cons_self, hzero]
  · simp only [h1]
    have hrest : w.api_logs.filter (fun e => e.transaction_id == some tid)
        = [] := by
      rw [List.filter_eq_nil_iff]
      intro e he
      simp only [beq_iff_eq]
      exact hled e he
    simp [List.filter_cons, hrest, dispatchLog]
  · simp only [h1]
    intro e he htid
    rcases List.mem_cons.mp he with rfl | hmem
    · rfl
    · exact absurd htid (hled e hmem)

/-- Witness for C3 on the fixture world: the double dispatch returns
the cached success and exactly one provider order is issued. -/
theorem dispatch_idempotent_witness :
    step (step w1ex (.dispatchToGateway "0" (.success "REF"))).1
        (.dispatchToGateway "0" (.success "REF")) =
      ((step w1ex (.dispatchToGateway "0" (.success "REF"))).1,
        .cachedOutcome (.success "REF")) ∧
    (step w1ex (.dispatchToGateway "0" (.success "REF"))).1.providerOrders.count
        "0" = 1 := by
  have hmain := dispatch_idempotent w1ex "0" txnPendingEx "REF" (.success "REF")
    (by decide) rfl (by simp [w1ex]) (by simp [w1ex])
  exact ⟨hmain.1, hmain.2.1⟩

/-- C5 (amended): the customer statistics update applies exactly once
per transaction reaching SUCCESS — a second success notification for
the same transaction is a no-op on the customer table —
total_transactions is monotonically non-decreasing under every
operation, and total_spent is monotonically non-decreasing provided
every persisted transaction total is nonnegative (negative-price
products are excluded neither by the schema nor by the pricing
validations, see the counterexample). -/
theorem customer_stats_once (w : World) (tid : String) (refId refId2 : String) :
    (step (step w (.notifySuccess tid refId)).1
        (.notifySuccess tid refId2)).1.customers =
      (step w (.notifySuccess tid refId)).1.customers ∧
    (∀ op, ∀ c ∈ w.customers, ∃ c2 ∈ (step w op).1.customers, c2.id = c.id ∧
      c.total_transactions ≤ c2.total_transactions ∧
      ((∀ t ∈ w.transactions, 0 ≤ t.total_amount) →
        c.total_spent ≤ c2.total_spent)) := by
  constructor
  · rcases hf : findTxn w.transactions tid with _ | t
    · simp [step, hf]
    · by_cases hst : t.status = .processing
      · have hid : t.transaction_id = tid := findTxn_eq_id _ _ _ hf
        have h1 : step w (.notifySuccess tid refId) =
            ({ w with
               transactions :=
                 updateTxn w.transactions tid (successUpdater w.clock refId),
               customers := w.customers.map (statsUpdater w.clock t),
               clock := w.clock + 1 }, .statsApplied) := by
          simp [step, hf, hst]
        rw [h1]
        have hfind2 : findTxn
            (updateTxn w.transactions tid (successUpdater w.clock refId)) tid =
            some (successUpdater w.clock refId t) := by
          rw [findTxn_updateTxn w.transactions tid
            (successUpdater w.clock refId) (fun u => rfl) tid, hf]
          simp only [Option.map_some']
          rw [if_pos (beq_iff_eq.mpr hid)]
        have hnp : ¬ (successUpdater w.clock refId t).status = .processing := by
          simp [successUpdater]
        simp [step, hfind2, hnp]
      · have h1 : step w (.notifySuccess tid refId) = (w, .noop) := by
          simp [step, hf, hst]
        rw [h1]
        simp [step, hf, hst]
  · intro op c hc
    rcases step_customers_shape w op with hs | ⟨t, htm, hs⟩
    · exact ⟨c, by rw [hs]; exact hc, rfl, le_refl _, fun _ => le_refl _⟩
    · refine ⟨statsUpdater w.clock t c,
        by rw [hs]; exact List.mem_map_of_mem _ hc, ?_, ?_, ?_⟩
      · unfold statsUpdater
        by_cases hcid : t.customer_id = some c.id
        · rw [if_pos hcid]
        · rw [if_neg hcid]
      · unfold statsUpdater
        by_cases hcid : t.customer_id = some c.id
        · rw [if_pos hcid]
          exact Int.le_add_of_nonneg_right Int.one_nonneg
        · rw [if_neg hcid]
      · intro hpos
        unfold statsUpdater
        by_cases hcid : t.customer_id = some c.id
        · rw [if_pos hcid]
          exact le_add_of_nonneg_right (hpos t htm)
        · rw [if_neg hcid]

/-- Witness for C5 on the fixture world: a duplicate success
notification leaves the customer table of the once-notified world
unchanged, and the statistics evolve monotonically. -/
theorem customer_stats_once_witness :
    (step (step w2ex (.notifySuccess "0" "REF")).1
        (.notifySuccess "0" "REF")).1.customers =
      (step w2ex (.notifySuccess "0" "REF")).1.customers ∧
    ∃ c2 ∈ (step w2ex (.notifySuccess "0" "REF")).1.customers,
      c2.id = custEx.id ∧ custEx.total_transactions ≤ c2.total_transactions ∧
      custEx.total_spent ≤ c2.total_spent := by
  have hpos : ∀ t ∈ w2ex.transactions, 0 ≤ t.total_amount := by
    intro t ht
    rcases List.mem_singleton.mp ht with rfl
    norm_num [txnProcessingEx, txnPendingEx]
  have hmain := customer_stats_once w2ex "0" "REF" "REF"
  rcases hmain.2 (.notifySuccess "0" "REF") custEx
    (List.mem_singleton.mpr rfl) with ⟨c2, hc2, hid, htt, hts⟩
  exact ⟨hmain.1, c2, hc2, hid, htt, hts hpos⟩

/-- Counterexample to C5 as stated: total_spent is not monotonically
non-decreasing across all operations.  The reachable world wn2ex holds
a PROCESSING transaction priced from a negative-price product (which
neither the schema nor the pricing validations reject) with total
-150; its success notification decreases the customer's total_spent
from 0 to -150. -/
theorem customer_stats_monotone_cex :
    Reachable wn2ex ∧ wn2ex.customers = [custEx] ∧
    (step wn2ex (.notifySuccess "0" "RN")).1.customers = [custNegEx] ∧
    custNegEx.total_spent < custEx.total_spent := by
  refine ⟨reachable_wn2ex, rfl, ?_, by norm_num [custNegEx, custEx]⟩
  have hfind : findTxn wn2ex.transactions "0" = some txnNegProcessing := by
    decide
  have hst : txnNegProcessing.status = .processing := rfl
  simp only [step, hfind, if_pos hst]
  simp only [wn2ex, List.map, statsUpdater, custEx, custNegEx,
    txnNegProcessing, txnNegPending, txnPendingEx]
  norm_num

/-- C6: cancellation succeeds exactly on a PENDING transaction,
cancelling it while leaving each of its other fields, the ledger, the
provider orders and the customer statistics untouched; cancelling a
non-PENDING (processing or terminal) transaction is a state-conflict
error that changes nothing at all. -/
theorem cancel_only_pending (w : World) (tid : String) (t : Transaction)
    (ht : findTxn w.transactions tid = some t) :
    (t.status = .pending →
      (step w (.cancelTransaction tid)).2 = .txnCancelled ∧
      (∃ u, findTxn (step w (.cancelTransaction tid)).1.transactions tid =
          some u ∧ u.status = .cancelled ∧
        u.transaction_id = t.transaction_id ∧
        u.digiflazz_ref_id = t.digiflazz_ref_id ∧
        u.customer_id = t.customer_id ∧ u.game_id = t.game_id ∧
        u.total_amount = t.total_amount ∧ u.items = t.items ∧
        u.error_message = t.error_message ∧
        u.processed_at = t.processed_at ∧
        u.completed_at = t.completed_at) ∧
      (step w (.cancelTransaction tid)).1.providerOrders = w.providerOrders ∧
      (step w (.cancelTransaction tid)).1.api_logs = w.api_logs ∧
      (step w (.cancelTransaction tid)).1.customers = w.customers) ∧
    (t.status ≠ .pending →
      step w (.cancelTransaction tid) = (w, .stateConflict)) := by
  constructor
  · intro hp
    have h1 : step w (.cancelTransaction tid) =
        ({ w with
           transactions := updateTxn w.transactions tid cancelUpdater,
           clock := w.clock + 1 }, .txnCancelled) := by
      simp [step, ht, hp]
    rw [h1]
    have hfind2 : findTxn (updateTxn w.transactions tid cancelUpdater) tid =
        some (cancelUpdater t) := by
      rw [findTxn_updateTxn w.transactions tid cancelUpdater
        (fun u => rfl) tid, ht]
      simp only [Option.map_some']
      rw [if_pos (beq_iff_eq.mpr (findTxn_eq_id _ _ _ ht))]
    exact ⟨rfl, ⟨cancelUpdater t, hfind2, rfl, rfl, rfl, rfl, rfl, rfl, rfl,
      rfl, rfl, rfl⟩, rfl, rfl, rfl⟩
  · intro hne
    simp [step, ht, hne]

/-- Witness for C6: cancelling the PENDING fixture transaction
succeeds; cancelling it once it is PROCESSING is a state conflict that
returns the world unchanged. -/
theorem cancel_only_pending_witness :
    (step w1ex (.cancelTransaction "0")).2 = .txnCancelled ∧
    step w2ex (.cancelTransaction "0") = (w2ex, .stateConflict) := by
  have h1 := cancel_only_pending w1ex "0" txnPendingEx (by decide)
  have h2 := cancel_only_pending w2ex "0" txnProcessingEx (by decide)
  exact ⟨(h1.1 rfl).1, h2.2 (by decide)⟩

/-- C7: computeTotals fails with a validation error — and
createTransaction persists nothing — whenever the selection set is
empty or some selection has an unresolvable or inactive product, an
out-of-bounds quantity, or non-available stock. -/
theorem computeTotals_validation (catalog : List Product)
    (sels : List Selection)
    (hbad : sels = [] ∨ ∃ s ∈ sels, ¬ validSelection catalog s) :
    computeTotals catalog sels = .error .validationError ∧
    (∀ w gameId cid pm, w.catalog = catalog →
      step w (.createTransaction gameId sels cid pm) =
        (w, .rejected .validationError)) := by
  have herr : computeTotals catalog sels = .error .validationError := by
    rcases hbad with rfl | ⟨s, hs, hb⟩
    · rfl
    · cases sels with
      | nil => exact absurd hs (by simp)
      | cons s0 rest =>
        rcases computeLines_invalid catalog (s0 :: rest) s hs hb with ⟨e, he⟩
        have hev := computeLines_error catalog (s0 :: rest) e he
        unfold computeTotals
        simp [he, hev]
  refine ⟨herr, fun w gameId cid pm hcat => ?_⟩
  simp [step, hcat, herr]

/-- Witness for C7: quantity 6 exceeds the fixture maximum purchase 5,
so pricing fails and no transaction row is created. -/
theorem computeTotals_validation_witness :
    computeTotals [productEx] [{ productId := 1, quantity := 6 }] =
      .error .validationError ∧
    step w0ex (.createTransaction 1 [{ productId := 1, quantity := 6 }]
        (some 7) none) = (w0ex, .rejected .validationError) := by
  have hbad : ¬ validSelection [productEx] { productId := 1, quantity := 6 } := by
    rintro ⟨p, hp, _, _, _, hmax⟩
    have hl : lookupProduct [productEx] 1 = some productEx := by decide
    rw [hl] at hp
    cases hp
    simp [productEx] at hmax
  have hmain := computeTotals_validation [productEx]
    [{ productId := 1, quantity := 6 }]
    (Or.inr ⟨{ productId := 1, quantity := 6 }, List.mem_singleton.mpr rfl,
      hbad⟩)
  exact ⟨hmain.1, hmain.2 w0ex 1 (some 7) none rfl⟩

/-- C9: a successfully applied payment-method fee equals
fee_percentage × totalAmount + fee_fixed and the resulting amount lies
within [min_amount, max_amount]; if the resulting amount falls outside
that range the computation fails with paymentMethodRangeError and
createTransaction persists nothing. -/
theorem payment_fee_range (pm : PaymentMethod) (total amount : ℚ) :
    (applyPaymentFee pm total = .ok amount →
      amount = total + (pm.fee_percentage * total + pm.fee_fixed) ∧
      pm.min_amount ≤ amount ∧ amount ≤ pm.max_amount) ∧
    (¬ (pm.min_amount ≤ total + (pm.fee_percentage * total + pm.fee_fixed) ∧
        total + (pm.fee_percentage * total + pm.fee_fixed) ≤ pm.max_amount) →
      applyPaymentFee pm total = .error .paymentMethodRangeError ∧
      ∀ w gameId sels cid items,
        computeTotals w.catalog sels = .ok (items, total) →
        step w (.createTransaction gameId sels cid (some pm)) =
          (w, .rejected .paymentMethodRangeError)) := by
  constructor
  · intro h
    unfold applyPaymentFee at h
    split at h
    · next hcond =>
      cases h
      exact ⟨rfl, hcond.1, hcond.2⟩
    · exact absurd h (by simp)
  · intro hnot
    have herr : applyPaymentFee pm total = .error .paymentMethodRangeError := by
      unfold applyPaymentFee
      rw [if_neg hnot]
    refine ⟨herr, fun w gameId sels cid items hct => ?_⟩
    simp [step, hct, feeGate, herr]

/-- Witness for C9: with a zero-percentage, 50-fixed fee the amount is
500 and lies inside [100, 1000]; with a minimum of 1000 the fixture
total 450 is out of range, the fee gate fails and the transaction is
not created. -/
theorem payment_fee_range_witness :
    ((500 : ℚ) = 450 + (pmEx.fee_percentage * 450 + pmEx.fee_fixed) ∧
      pmEx.min_amount ≤ 500 ∧ (500 : ℚ) ≤ pmEx.max_amount) ∧
    applyPaymentFee pmTight 450 = .error .paymentMethodRangeError ∧
    step w0ex (.createTransaction 1 [selEx] (some 7) (some pmTight)) =
      (w0ex, .rejected .paymentMethodRangeError) := by
  have hok : applyPaymentFee pmEx 450 = .ok 500 := by
    unfold applyPaymentFee
    rw [if_pos]
    · norm_num [pmEx]
    · norm_num [pmEx]
  have h1 := (payment_fee_range pmEx 450 500).1 hok
  have hnot : ¬ (pmTight.min_amount ≤
      450 + (pmTight.fee_percentage * 450 + pmTight.fee_fixed) ∧
      450 + (pmTight.fee_percentage * 450 + pmTight.fee_fixed) ≤
        pmTight.max_amount) := by
    norm_num [pmTight]
  have h2 := (payment_fee_range pmTight 450 0).2 hnot
  exact ⟨h1, h2.1, h2.2 w0ex 1 [selEx] (some 7) [itemEx] computeTotalsEx⟩

theorem productOk_invariant (p : Product) (h : productOk p = true) :
    productInvariant p := by
  unfold productOk at h
  rw [Bool.and_eq_true] at h
  constructor
  · intro d hd
    have h1 := h.1
    rw [hd] at h1
    rcases ho : p.original_price with _ | o
    · rw [ho] at h1
      simp at h1
    · rw [ho] at h1
      simp only [decide_eq_true_eq] at h1
      exact ⟨o, rfl, h1.2.2⟩
  · have h2 := h.2
    simp only [decide_eq_true_eq] at h2
    exact h2.2

/-- C8: every product produced by product creation or by a product
update satisfies the two catalog invariants: a set
discount_percentage implies price ≤ original_price, and
minimum_purchase ≤ maximum_purchase. -/
theorem product_invariants (pc : ProductCreate) (newId : Nat) (p q : Product)
    (u : ProductUpdate) :
    (createProduct pc newId = .ok p → productInvariant p) ∧
    (updateProduct p u = .ok q → productInvariant q) := by
  constructor
  · intro h
    simp only [createProduct] at h
    split at h
    · next hok =>
      cases h
      exact productOk_invariant _ hok
    · exact absurd h (by simp)
  · intro h
    simp only [updateProduct] at h
    split at h
    · next hok =>
      cases h
      exact productOk_invariant _ hok
    · exact absurd h (by simp)

/-- Witness for C8: creating a discounted product with price 100 and
original price 150 succeeds and the created product satisfies both
invariants. -/
theorem product_invariants_witness :
    createProduct pcEx 5 = .ok pEx2 ∧ productInvariant pEx2 := by
  have hc : createProduct pcEx 5 = .ok pEx2 := by decide
  exact ⟨hc, (product_invariants pcEx 5 pEx2 pEx2
    { price := none, original_price := none, discount_percentage := none,
      is_active := none, stock_status := none }).1 hc⟩

/-- C10: schema validation rejects an explicit quantity below 1 with a
validation error before any pricing or persistence, an omitted
quantity defaults to 1, and every validated request carries a quantity
of at least 1, so pricing never observes a non-positive quantity. -/
theorem topUpRequest_quantity (r : TopUpRequestInput) :
    (∀ q, r.quantity = some q → q < 1 →
      validateTopUpRequest r = .error .validationError) ∧
    (∀ t, validateTopUpRequest r = .ok t → 1 ≤ t.quantity) ∧
    (r.quantity = none → ∀ t, validateTopUpRequest r = .ok t →
      t.quantity = 1) := by
  refine ⟨?_, ?_, ?_⟩
  · intro q hq hlt
    have hcond : ¬ (1 ≤ r.quantity.getD 1 ∧ r.game_user_id.length ≤ 100 ∧
        optMaxLen r.game_user_server 50 ∧ optMaxLen r.customer_email 255 ∧
        optMaxLen r.customer_phone 20 ∧ optMaxLen r.customer_name 100 ∧
        optMaxLen r.payment_method 50) := by
      rw [hq]
      simp only [Option.getD_some]
      intro hc
      omega
    simp only [validateTopUpRequest]
    rw [if_neg hcond]
  · intro t ht
    simp only [validateTopUpRequest] at ht
    split at ht
    · next hc =>
      cases ht
      exact hc.1
    · exact absurd ht (by simp)
  · intro hn t ht
    simp only [validateTopUpRequest] at ht
    split at ht
    · next hc =>
      cases ht
      simp [hn]
    · exact absurd ht (by simp)

/-- Witness for C10: a request with quantity 0 is rejected, and the
same request with the quantity omitted validates with quantity 1. -/
theorem topUpRequest_quantity_witness :
    validateTopUpRequest topUpBad = .error .validationError ∧
    (∀ t, validateTopUpRequest topUpGood = .ok t → t.quantity = 1) := by
  exact ⟨(topUpRequest_quantity topUpBad).1 0 rfl (by norm_num),
    (topUpRequest_quantity topUpGood).2.2 rfl⟩

end TopUp
